import Mathlib

/-!
Verification of the Halide generator/parameter framework (Generator.h).

The development shallowly embeds the configuration-value hierarchy
(GeneratorParam_Arithmetic / _Bool / _Enum / _Target), the generator
lifecycle flags and guards (call_generate_impl / call_schedule_impl /
build_pipeline_impl), the argument-descriptor accessors (GIOBase::funcs /
exprs), the scalar-union comparison used by the metadata test
(scalar_union_ptr_equal), the generator registry, and the metadata
emitter's flattened argument table.

Machine values are modelled as Int (with explicit type ranges carried
alongside each arithmetic parameter); scalar-union payloads in metadata
rows are carried as Rat so that the integer rows the claims are about are
exact, while float payloads from the test are represented by their source
decimal literals (no IEEE arithmetic is modelled or relied upon).

Code that lives in Generator.cpp (not present in the sources) is modelled
from the specification; every such definition carries a doc comment
starting with "Modelled from the spec:".
-/

set_option autoImplicit false

/-- Error outcomes of the framework's user_assert / user_error /
internal_assert guards, named after the specification's taxonomy. -/
inductive GError where
  | OutOfRange
  | ParseFailure
  | UnknownVariant
  | OutOfOrder
  | DoubleInvocation
  | InternalAssert
  | DuplicateName
  | NotFound
  | ArityMismatch
  deriving DecidableEq, Repr

/-! ### Generator lifecycle (Generator<T> flags and guards) -/

/-- The three lifecycle flags of GeneratorBase: generate_called,
schedule_called, build_pipeline_called, all false at construction. -/
structure GenLifecycle where
  generate_called : Bool
  schedule_called : Bool
  build_pipeline_called : Bool
  deriving DecidableEq, Repr

/-- Freshly constructed generator instance: all lifecycle flags false. -/
def initLifecycle : GenLifecycle := ⟨false, false, false⟩

/-- Generator::call_generate_impl: user_assert(!generate_called), run the
body, then set generate_called.  A firing user_assert aborts before any
mutation, so the state is returned unchanged alongside the error. -/
def call_generate_impl (s : GenLifecycle) : GenLifecycle × Option GError :=
  if s.generate_called then (s, some GError.DoubleInvocation)
  else ({ s with generate_called := true }, none)

/-- Generator::call_schedule_impl: user_assert(generate_called), then
user_assert(!schedule_called), run the body, then set schedule_called. -/
def call_schedule_impl (s : GenLifecycle) : GenLifecycle × Option GError :=
  if s.generate_called = false then (s, some GError.OutOfOrder)
  else if s.schedule_called then (s, some GError.DoubleInvocation)
  else ({ s with schedule_called := true }, none)

/-- Generator::build_pipeline_impl, one-shot (build()) protocol:
internal_assert(!build_pipeline_called); run build(); set the flag. -/
def build_pipeline_impl_build (s : GenLifecycle) : GenLifecycle × Option GError :=
  if s.build_pipeline_called then (s, some GError.InternalAssert)
  else ({ s with build_pipeline_called := true }, none)

/-- Generator::build_pipeline_impl, phased (generate()/schedule())
protocol: internal_assert(!build_pipeline_called); call_generate_impl;
call_schedule_impl; set the flag. -/
def build_pipeline_impl_phased (s : GenLifecycle) : GenLifecycle × Option GError :=
  if s.build_pipeline_called then (s, some GError.InternalAssert)
  else
    match call_generate_impl s with
    | (s1, some e) => (s1, some e)
    | (s1, none) =>
      match call_schedule_impl s1 with
      | (s2, some e) => (s2, some e)
      | (s2, none) => ({ s2 with build_pipeline_called := true }, none)

/-! ### Decimal text grammar of istream extraction / ostream insertion -/

/-- Whitespace characters skipped by default-configured istream
extraction (the skipws behaviour of operator>>). -/
def isSpaceChar (c : Char) : Bool :=
  c = ' ' || c = '\t' || c = '\n' || c = '\r' || c = '\x0b' || c = '\x0c'

/-- Decimal digit test. -/
def isDigitChar (c : Char) : Bool :=
  '0' ≤ c && c ≤ '9'

/-- Numeric value of a decimal digit character. -/
def digitVal (c : Char) : Nat := c.toNat - 48

/-- Decimal digit character of a value below ten. -/
def digitChar (d : Nat) : Char := Char.ofNat (48 + d)

/-- Value of a most-significant-first decimal digit string. -/
def digitsVal (ds : List Char) : Nat :=
  ds.foldl (fun a c => a * 10 + digitVal c) 0

/-- Read a nonempty run of decimal digits from the front of the input,
returning its value and the unconsumed remainder. -/
def readUnsignedDigits (cs : List Char) : Option (Nat × List Char) :=
  let ds := cs.takeWhile isDigitChar
  if ds.isEmpty then none
  else some (digitsVal ds, cs.dropWhile isDigitChar)

/-- Strip one optional sign character, reporting whether it was a minus. -/
def splitSign (cs : List Char) : Bool × List Char :=
  match cs with
  | [] => (false, [])
  | c :: rest =>
    if c = '-' then (true, rest)
    else if c = '+' then (false, rest)
    else (false, c :: rest)

/-- Model of `iss >> t` for a signed integer type whose representable
range is [tlo, thi]: skip leading whitespace, read an optional sign and a
nonempty digit run; a value outside the type's range sets failbit (num_get
overflow), modelled as none. -/
def streamReadInt (tlo thi : Int) (cs0 : List Char) : Option (Int × List Char) :=
  let cs := (cs0.dropWhile isSpaceChar)
  let sg := splitSign cs
  match readUnsignedDigits sg.2 with
  | some (n, r) =>
    let v : Int := if sg.1 then -(n : Int) else (n : Int)
    if tlo ≤ v ∧ v ≤ thi then some (v, r) else none
  | none => none

/-- Decimal digit characters of a natural number, most significant
first (the text `oss << value` produces for a nonnegative integer). -/
def natDecDigits (n : Nat) : List Char :=
  if n < 10 then [digitChar n]
  else natDecDigits (n / 10) ++ [digitChar (n % 10)]
termination_by n
decreasing_by exact Nat.div_lt_self (by omega) (by omega)

/-- Text `oss << value` produces for a signed integer: optional minus
sign followed by decimal digits. -/
def intToDecString (v : Int) : String :=
  if v < 0 then ⟨'-' :: natDecDigits (-v).toNat⟩ else ⟨natDecDigits v.toNat⟩

/-! ### GeneratorParam_Arithmetic (signed integer widths) -/

/-- State of a GeneratorParam_Arithmetic<T> for a signed integer T:
current value, declared min/max bounds (lo, hi: constructor defaults are
numeric_limits lowest/max), and the representable range [tlo, thi] of T
itself, which governs parse overflow. -/
structure ArithParam where
  value : Int
  lo : Int
  hi : Int
  tlo : Int
  thi : Int
  deriving DecidableEq, Repr

/-- Smallest int32_t value. -/
def int32_lowest : Int := -2147483648

/-- Largest int32_t value. -/
def int32_largest : Int := 2147483647

/-- A GeneratorParam_Arithmetic<int32_t> with the given value and
declared bounds. -/
def mkInt32Param (value lo hi : Int) : ArithParam :=
  ⟨value, lo, hi, int32_lowest, int32_largest⟩

/-- GeneratorParam_Arithmetic::set:
user_assert(new_value >= min && new_value <= max), then store. The
firing assert aborts before the store, leaving the value unchanged. -/
def ArithParam.set (p : ArithParam) (v : Int) : ArithParam × Option GError :=
  if p.lo ≤ v ∧ v ≤ p.hi then ({ p with value := v }, none)
  else (p, some GError.OutOfRange)

/-- GeneratorParam_Arithmetic::set_from_string: `iss >> t`, then
user_assert(!iss.fail() && iss.get() == EOF) (parse must succeed and
consume the whole string), then this->set(t). -/
def ArithParam.set_from_string (p : ArithParam) (s : String) : ArithParam × Option GError :=
  match streamReadInt p.tlo p.thi s.data with
  | some (v, rest) =>
    if rest.isEmpty then p.set v else (p, some GError.ParseFailure)
  | none => (p, some GError.ParseFailure)

/-- GeneratorParam_Arithmetic::to_string: `oss << value`. -/
def ArithParam.to_string (p : ArithParam) : String := intToDecString p.value

/-! ### GeneratorParam_Bool -/

/-- State of a GeneratorParam_Bool (its inherited arithmetic bounds are
the full bool range, so set never fails). -/
structure BoolParam where
  value : Bool
  deriving DecidableEq, Repr

/-- GeneratorParam_Bool::set_from_string: accepts exactly "true" or
"false", anything else fails user_assert before mutation. -/
def BoolParam.set_from_string (p : BoolParam) (s : String) : BoolParam × Option GError :=
  if s = "true" then (⟨true⟩, none)
  else if s = "false" then (⟨false⟩, none)
  else (p, some GError.ParseFailure)

/-- GeneratorParam_Bool::to_string. -/
def BoolParam.to_string (p : BoolParam) : String :=
  if p.value then "true" else "false"

/-! ### GeneratorParam_Enum -/

/-- State of a GeneratorParam_Enum<T>: the current value and the
caller-supplied enum_map.  The list holds the std::map entries in their
iteration order (ascending key order, keys unique); enum values are
modelled as Int. -/
structure EnumParam where
  value : Int
  enum_map : List (String × Int)
  deriving DecidableEq, Repr

/-- GeneratorParam_Enum::set_from_string: exact-name lookup in enum_map
(user_assert fires on a missing name), then GeneratorParamImpl::set,
which stores unconditionally. -/
def EnumParam.set_from_string (p : EnumParam) (s : String) : EnumParam × Option GError :=
  match p.enum_map.find? (fun kv => kv.1 == s) with
  | some kv => ({ p with value := kv.2 }, none)
  | none => (p, some GError.UnknownVariant)

/-- Internal::enum_to_string: iterate the map in order and return the
first name whose value compares equal; user_error (none) if no entry
matches. -/
def enum_to_string (m : List (String × Int)) (v : Int) : Option String :=
  (m.find? (fun kv => kv.2 == v)).map (fun kv => kv.1)

/-- GeneratorParam_Enum::to_string. -/
def EnumParam.to_string (p : EnumParam) : Option String :=
  enum_to_string p.enum_map p.value

/-- The enum table of the wraptest generator's bag_type parameter, in
std::map iteration order. -/
def bagTable : List (String × Int) := [("paper", 0), ("plastic", 1)]

/-- An enum table with two names for the same value, legal for std::map
(only keys are unique). -/
def dupValueTable : List (String × Int) := [("a", 0), ("b", 0)]

/-- Modelled from the spec: the loop-level enum table
(get_halide_looplevel_enum_map, defined in Generator.cpp, absent from
the sources) maps the reserved sentinels "undefined"/"root"/"inline" to
three distinct loop-level descriptors, here numbered in ascending key
order. -/
def looplevelEnumMap : List (String × Int) := [("inline", 0), ("root", 1), ("undefined", 2)]

/-! ### GeneratorParam_Target -/

/-- Modelled from the spec: the Target textual codec (Target's parse
constructor and Target::to_string live outside the generator framework
sources); the spec treats target-like kinds as plain string codecs, so a
Target value is its textual form. -/
structure TargetParam where
  value : String
  deriving DecidableEq, Repr

/-- GeneratorParam_Target::set_from_string: this->set(Target(s)). -/
def TargetParam.set_from_string (p : TargetParam) (s : String) : TargetParam × Option GError :=
  (⟨s⟩, none)

/-- GeneratorParam_Target::to_string: value().to_string(). -/
def TargetParam.to_string (p : TargetParam) : String := p.value

/-! ### GeneratorParam_Arithmetic at 8 bits (char-typed stream I/O) -/

/-- State of a GeneratorParam_Arithmetic<int8_t>.  int8_t is a character
type, so ostream insertion writes the raw byte and istream extraction
reads a single non-whitespace character. -/
structure Int8Param where
  value : Int
  lo : Int
  hi : Int
  deriving DecidableEq, Repr

/-- GeneratorParam_Arithmetic<int8_t>::set. -/
def Int8Param.set (p : Int8Param) (v : Int) : Int8Param × Option GError :=
  if p.lo ≤ v ∧ v ≤ p.hi then ({ p with value := v }, none)
  else (p, some GError.OutOfRange)

/-- Text `oss << value` produces for an int8_t: the single raw byte
(two's-complement) of the value, not its decimal digits. -/
def int8_to_string (v : Int) : String := ⟨[Char.ofNat (v % 256).toNat]⟩

/-- Model of `iss >> t` for a character type: skip leading whitespace,
then extract one character (failbit if none remain). -/
def streamReadChar (cs : List Char) : Option (Char × List Char) :=
  match cs.dropWhile isSpaceChar with
  | [] => none
  | c :: rest => some (c, rest)

/-- Two's-complement reading of a byte as int8_t. -/
def charToInt8 (c : Char) : Int :=
  if c.toNat < 128 then (c.toNat : Int) else (c.toNat : Int) - 256

/-- GeneratorParam_Arithmetic<int8_t>::set_from_string: character
extraction, then the whole-input check, then this->set. -/
def Int8Param.set_from_string (p : Int8Param) (s : String) : Int8Param × Option GError :=
  match streamReadChar s.data with
  | some (c, rest) =>
    if rest.isEmpty then p.set (charToInt8 c)
    else (p, some GError.ParseFailure)
  | none => (p, some GError.ParseFailure)

/-- GeneratorParam_Arithmetic<int8_t>::to_string. -/
def Int8Param.to_string (p : Int8Param) : String := int8_to_string p.value

/-- A GeneratorParam_Arithmetic<int8_t> with the constructor's default
bounds (numeric_limits lowest/max of int8_t). -/
def c4Int8Example : Int8Param := ⟨0, -128, 127⟩

/-! ### GIOBase (argument descriptor state and accessors) -/

/-- State of a GIOBase after construction/binding: the resolved
multiplicity (array_size_.value(): always 1 when not an array) and the
two value lists funcs_ / exprs_.  Func and Expr handles are modelled as
opaque numbers. -/
structure GIOState where
  array_size : Nat
  funcs : List Nat
  exprs : List Nat
  deriving DecidableEq, Repr

/-- GIOBase::funcs():
internal_assert(funcs_.size() == array_size() && exprs_.empty()). -/
def GIOState.funcsAcc (g : GIOState) : Except GError (List Nat) :=
  if g.funcs.length = g.array_size ∧ g.exprs = [] then Except.ok g.funcs
  else Except.error GError.InternalAssert

/-- GIOBase::exprs():
internal_assert(exprs_.size() == array_size() && funcs_.empty()). -/
def GIOState.exprsAcc (g : GIOState) : Except GError (List Nat) :=
  if g.exprs.length = g.array_size ∧ g.funcs = [] then Except.ok g.exprs
  else Except.error GError.InternalAssert

/-- Modelled from the spec: the binding step for a Function-kind
descriptor (GeneratorInputBase::set_inputs / init_internals live in
Generator.cpp, absent from the sources).  Binding supplies exactly
resolved-multiplicity many handles to the funcs list and leaves exprs
empty; an arity mismatch fails before mutation. -/
def GIOState.bindFuncs (g : GIOState) (fs : List Nat) : Except GError GIOState :=
  if fs.length = g.array_size then Except.ok { g with funcs := fs, exprs := [] }
  else Except.error GError.ArityMismatch

/-- Modelled from the spec: the binding step for a Scalar-kind
descriptor; symmetric to bindFuncs. -/
def GIOState.bindExprs (g : GIOState) (es : List Nat) : Except GError GIOState :=
  if es.length = g.array_size then Except.ok { g with exprs := es, funcs := [] }
  else Except.error GError.ArityMismatch

/-! ### Metadata record model -/

/-- halide_argument_kind values. -/
inductive ArgKind where
  | InputScalar
  | InputBuffer
  | OutputBuffer
  deriving DecidableEq, Repr

/-- halide_type_code values. -/
inductive TypeCode where
  | tint
  | tuint
  | tfloat
  | thandle
  deriving DecidableEq, Repr

/-- halide_type_t: type code plus bit width. -/
structure HType where
  code : TypeCode
  bits : Nat
  deriving DecidableEq, Repr

/-- One halide_filter_argument_t row.  The optional scalar-union
payloads def/min/max are carried as Rat: the integer payloads the claims
concern are exact, and the test's float payloads are represented by
their source decimal literals (their numeric semantics is never used). -/
structure FilterArgument where
  name : String
  kind : ArgKind
  dimensions : Int
  type : HType
  def_ : Option Rat
  min_ : Option Rat
  max_ : Option Rat
  deriving DecidableEq, Repr

/-- scalar_union_equal from metadata_tester_aottest.cpp: dispatch on
type code and bit width and compare the corresponding union field.  In
the model a union payload is a single value, so every branch compares
the payloads for equality (the code's fall-through chain ends in the
handle comparison, so every code/bits pair reaches a comparison). -/
def scalar_union_equal (code : TypeCode) (bits : Nat) (e a : Rat) : Bool :=
  match code, bits with
  | _, _ => e == a

/-- scalar_union_ptr_equal from metadata_tester_aottest.cpp: two absent
(null) payloads are equal; an absent and a present payload are unequal;
two present payloads compare via scalar_union_equal. -/
def scalar_union_ptr_equal (code : TypeCode) (bits : Nat) (e a : Option Rat) : Bool :=
  match e, a with
  | some x, some y => scalar_union_equal code bits x y
  | none, none => true
  | _, _ => false

/-- IOKind from Generator.h. -/
inductive IOKind where
  | Scalar
  | Function
  deriving DecidableEq, Repr

/-- Declaration-time shape of one generator input or output: name, kind,
array-ness and resolved array size, element type(s) (more than one only
for tuple-valued outputs), dimensionality, and the declared default /
min / max payloads of a scalar input. -/
structure GIODecl where
  name : String
  kind : IOKind
  is_array : Bool
  array_size : Nat
  types : List HType
  dimensions : Int
  def_ : Option Rat
  min_ : Option Rat
  max_ : Option Rat
  deriving DecidableEq, Repr

/-- GeneratorInput(n, def, min, max): scalar input with explicit
default and bounds. -/
def mkScalarInputFull (n : String) (t : HType) (d mn mx : Rat) : GIODecl :=
  ⟨n, IOKind.Scalar, false, 1, [t], 0, some d, some mn, some mx⟩

/-- GeneratorInput(n, def): scalar input with explicit default and no
bounds (min_/max_ stay undefined Exprs, so no bounds are pushed). -/
def mkScalarInputDef (n : String) (t : HType) (d : Rat) : GIODecl :=
  ⟨n, IOKind.Scalar, false, 1, [t], 0, some d, none, none⟩

/-- GeneratorInput(n): delegates to GeneratorInput(n, static_cast<T>(0)),
so a scalar input declared with only a name has default 0. -/
def mkScalarInputNameOnly (n : String) (t : HType) : GIODecl :=
  mkScalarInputDef n t 0

/-- GeneratorInput(array_size, n, def): scalar array input with explicit
default. -/
def mkScalarArrayInputDef (k : Nat) (n : String) (t : HType) (d : Rat) : GIODecl :=
  ⟨n, IOKind.Scalar, true, k, [t], 0, some d, none, none⟩

/-- GeneratorInput(array_size, n, def, min, max): scalar array input
with explicit default and bounds. -/
def mkScalarArrayInputFull (k : Nat) (n : String) (t : HType) (d mn mx : Rat) : GIODecl :=
  ⟨n, IOKind.Scalar, true, k, [t], 0, some d, some mn, some mx⟩

/-- GeneratorInput(array_size, n): delegates to
GeneratorInput(array_size, n, static_cast<TBase>(0)). -/
def mkScalarArrayInputNameOnly (k : Nat) (n : String) (t : HType) : GIODecl :=
  mkScalarArrayInputDef k n t 0

/-- GeneratorInput(n, t, d) for T = Func: buffer input. -/
def mkFuncInput (n : String) (t : HType) (d : Int) : GIODecl :=
  ⟨n, IOKind.Function, false, 1, [t], d, none, none, none⟩

/-- GeneratorInput(array_size, n, t, d) for T = Func[]: buffer array
input. -/
def mkFuncArrayInput (k : Nat) (n : String) (t : HType) (d : Int) : GIODecl :=
  ⟨n, IOKind.Function, true, k, [t], d, none, none, none⟩

/-- GeneratorOutput(n, ts, d): buffer output, tuple-valued when more
than one type is given. -/
def mkFuncOutput (n : String) (ts : List HType) (d : Int) : GIODecl :=
  ⟨n, IOKind.Function, false, 1, ts, d, none, none, none⟩

/-- GeneratorOutput(array_size, n, t, d): buffer array output. -/
def mkFuncArrayOutput (k : Nat) (n : String) (t : HType) (d : Int) : GIODecl :=
  ⟨n, IOKind.Function, true, k, [t], d, none, none, none⟩

/-- GeneratorOutput(n) for arithmetic T: zero-dimensional buffer
output. -/
def mkScalarOutput (n : String) (t : HType) : GIODecl :=
  ⟨n, IOKind.Function, false, 1, [t], 0, none, none, none⟩

/-- GeneratorOutput(array_size, n) for arithmetic T: array of
zero-dimensional buffer outputs. -/
def mkScalarArrayOutput (k : Nat) (n : String) (t : HType) : GIODecl :=
  ⟨n, IOKind.Function, true, k, [t], 0, none, none, none⟩

/-- Modelled from the spec: GIOBase::array_name (implemented in
Generator.cpp, absent from the sources; the spec fixes the convention):
the i-th element of array argument `name` is named `name_i`,
zero-indexed. -/
def array_name (n : String) (i : Nat) : String := n ++ "_" ++ toString i

/-- First declared element type of a descriptor. -/
def GIODecl.firstType (d : GIODecl) : HType := d.types.headD ⟨TypeCode.tint, 0⟩

/-- Metadata argument kind of a descriptor: outputs are output buffers;
Function-kind inputs are input buffers; Scalar-kind inputs are scalar
arguments. -/
def GIODecl.argKindFor (d : GIODecl) (isOutput : Bool) : ArgKind :=
  if isOutput then ArgKind.OutputBuffer
  else if d.kind = IOKind.Function then ArgKind.InputBuffer
  else ArgKind.InputScalar

/-- Modelled from the spec: one emitted metadata row.  Scalar-input rows
carry the declared default/min/max payloads, except that handle-typed
scalars carry absent payloads (the emitter publishes no scalar union for
handles, as the metadata test's expected rows show); buffer rows always
carry absent payloads. -/
def GIODecl.rowFor (d : GIODecl) (k : ArgKind) (nm : String) (t : HType) : FilterArgument :=
  if k = ArgKind.InputScalar ∧ t.code ≠ TypeCode.thandle then
    ⟨nm, k, d.dimensions, t, d.def_, d.min_, d.max_⟩
  else
    ⟨nm, k, d.dimensions, t, none, none, none⟩

/-- Modelled from the spec: the flattened metadata rows of one
descriptor.  An array descriptor produces one row per element, in
ascending index order, named via array_name; a tuple-valued output
produces one row per component, named `name.i`; otherwise one row named
`name`. -/
def GIODecl.emitRows (d : GIODecl) (isOutput : Bool) : List FilterArgument :=
  let k := d.argKindFor isOutput
  if d.is_array then
    (List.range d.array_size).map (fun i => d.rowFor k (array_name d.name i) d.firstType)
  else if d.types.length > 1 then
    (List.range d.types.length).map
      (fun i => d.rowFor k (d.name ++ "." ++ toString i) (d.types.getD i d.firstType))
  else
    [d.rowFor k d.name d.firstType]

/-- Declaration-time shape of a whole generator: whether it declares the
implicit __user_context argument, and its inputs and outputs in
declaration order. -/
structure GenDecl where
  hasUserContext : Bool
  inputs : List GIODecl
  outputs : List GIODecl
  deriving DecidableEq, Repr

/-- The implicit context argument's metadata row. -/
def uconRow : FilterArgument :=
  ⟨"__user_context", ArgKind.InputScalar, 0, ⟨TypeCode.thandle, 64⟩, none, none, none⟩

/-- The halide_filter_metadata_t argument table. -/
structure MetadataRecord where
  num_arguments : Int
  arguments : List FilterArgument
  deriving DecidableEq, Repr

/-- Modelled from the spec: emit_metadata walks the finalized
descriptors and produces the flattened, ordered argument table: the
implicit context argument (when declared) first, then all inputs in
declaration order, then all outputs in declaration order, each array
flattened in ascending index order. -/
def emit_metadata (g : GenDecl) : MetadataRecord :=
  let args :=
    (if g.hasUserContext then [uconRow] else [])
      ++ (g.inputs.map (fun d => d.emitRows false)).flatten
      ++ (g.outputs.map (fun d => d.emitRows true)).flatten
  ⟨(args.length : Int), args⟩

/-- Shorthand for a signed integer metadata type. -/
def tInt (b : Nat) : HType := ⟨TypeCode.tint, b⟩

/-- Shorthand for an unsigned integer metadata type. -/
def tUInt (b : Nat) : HType := ⟨TypeCode.tuint, b⟩

/-- Shorthand for a float metadata type. -/
def tFloat (b : Nat) : HType := ⟨TypeCode.tfloat, b⟩

/-- Shorthand for the 64-bit handle metadata type. -/
def tHandle : HType := ⟨TypeCode.thandle, 64⟩

/-- The declared inputs of the metadata_tester generator, in declaration
order, reconstructed from the AOT test's argument comments and expected
rows (float payloads carried as the test's decimal literals). -/
def metadataTesterInputs : List GIODecl :=
  [ mkFuncInput "input" (tUInt 8) 3,
    mkScalarInputDef "b" (tUInt 1) 1,
    mkScalarInputFull "i8" (tInt 8) 8 (-8) 127,
    mkScalarInputFull "i16" (tInt 16) 16 (-16) 127,
    mkScalarInputFull "i32" (tInt 32) 32 (-32) 127,
    mkScalarInputFull "i64" (tInt 64) 64 (-64) 127,
    mkScalarInputFull "u8" (tUInt 8) 80 8 255,
    mkScalarInputFull "u16" (tUInt 16) 160 16 2550,
    mkScalarInputFull "u32" (tUInt 32) 320 32 2550,
    mkScalarInputFull "u64" (tUInt 64) 640 64 2550,
    mkScalarInputFull "f32" (tFloat 32) (321234/10000) (-32001234/10000) (32001234/10000),
    mkScalarInputFull "f64" (tFloat 64) (257/4) (-25601/4) (25601/4),
    mkScalarInputNameOnly "h" tHandle,
    mkFuncInput "input_not_nod" (tUInt 8) 3,
    mkFuncInput "input_nod" (tUInt 8) 3,
    mkFuncInput "input_not" (tUInt 8) 3,
    mkFuncArrayInput 2 "array_input" (tUInt 8) 3,
    mkFuncArrayInput 2 "array2_input" (tUInt 8) 3,
    mkScalarArrayInputNameOnly 2 "array_i8" (tInt 8),
    mkScalarArrayInputNameOnly 2 "array2_i8" (tInt 8),
    mkScalarArrayInputDef 2 "array_i16" (tInt 16) 16,
    mkScalarArrayInputDef 2 "array2_i16" (tInt 16) 16,
    mkScalarArrayInputFull 2 "array_i32" (tInt 32) 32 (-32) 127,
    mkScalarArrayInputFull 2 "array2_i32" (tInt 32) 32 (-32) 127,
    mkScalarArrayInputNameOnly 2 "array_h" tHandle ]

/-- The declared outputs of the metadata_tester generator, in
declaration order. -/
def metadataTesterOutputs : List GIODecl :=
  [ mkFuncOutput "output" [tFloat 32, tFloat 32] 3,
    mkScalarOutput "output_scalar" (tFloat 32),
    mkFuncArrayOutput 2 "array_outputs" (tFloat 32) 3,
    mkFuncArrayOutput 2 "array_outputs2" (tFloat 32) 3,
    mkScalarArrayOutput 2 "array_outputs3" (tFloat 32) ]

/-- The metadata_tester generator without the implicit context
argument. -/
def metadataTesterDecl : GenDecl :=
  ⟨false, metadataTesterInputs, metadataTesterOutputs⟩

/-- The metadata_tester_ucon generator: the same declaration compiled
with an implicit __user_context argument. -/
def metadataTesterUconDecl : GenDecl :=
  ⟨true, metadataTesterInputs, metadataTesterOutputs⟩

/-- The argument names of the test's kExpectedArguments table, in its
exact order. -/
def mdExpectedNames : List String :=
  [ "__user_context", "input", "b", "i8", "i16", "i32", "i64",
    "u8", "u16", "u32", "u64", "f32", "f64", "h",
    "input_not_nod", "input_nod", "input_not",
    "array_input_0", "array_input_1", "array2_input_0", "array2_input_1",
    "array_i8_0", "array_i8_1", "array2_i8_0", "array2_i8_1",
    "array_i16_0", "array_i16_1", "array2_i16_0", "array2_i16_1",
    "array_i32_0", "array_i32_1", "array2_i32_0", "array2_i32_1",
    "array_h_0", "array_h_1",
    "output.0", "output.1", "output_scalar",
    "array_outputs_0", "array_outputs_1",
    "array_outputs2_0", "array_outputs2_1",
    "array_outputs3_0", "array_outputs3_1" ]

/-! ### Generator registry -/

/-- One generator instance for registry purposes: the wrapper class name
attached by the factory and the instance's generator parameters (each an
arithmetic configuration value here). -/
structure GenInstance where
  wrapper_class_name : String
  params : List (String × ArithParam)
  deriving DecidableEq, Repr

/-- SimpleGeneratorFactory state: the create function (modelled by the
fresh default instance it returns) and the wrapper class name it
attaches. -/
structure SimpleFactory where
  create_func : GenInstance
  wrapper_class_name : String
  deriving DecidableEq, Repr

/-- Modelled from the spec: one step of
GeneratorBase::set_generator_param_values (implemented in Generator.cpp,
absent from the sources): find the configuration value with the given
name (unknown names are a user_error) and set it from its textual
override; a failing set aborts the whole application. -/
def applyOverride (ps : List (String × ArithParam)) (k v : String) :
    Except GError (List (String × ArithParam)) :=
  match ps with
  | [] => Except.error GError.NotFound
  | q :: rest =>
    if q.1 = k then
      match q.2.set_from_string v with
      | (p1, none) => Except.ok ((q.1, p1) :: rest)
      | (_, some e) => Except.error e
    else
      (applyOverride rest k v).map (fun r => q :: r)

/-- Modelled from the spec: set_generator_param_values applies each
named textual override in order. -/
def set_generator_param_values (ps : List (String × ArithParam))
    (ov : List (String × String)) : Except GError (List (String × ArithParam)) :=
  ov.foldlM (fun acc kv => applyOverride acc kv.1 kv.2) ps

/-- SimpleGeneratorFactory::create: run create_func to obtain a fresh
instance, attach the wrapper class name, then apply the textual
overrides via set_generator_param_values. -/
def SimpleFactory.create (f : SimpleFactory) (ov : List (String × String)) :
    Except GError GenInstance :=
  match set_generator_param_values f.create_func.params ov with
  | Except.ok ps => Except.ok ⟨f.wrapper_class_name, ps⟩
  | Except.error e => Except.error e

/-- Modelled from the spec: GeneratorRegistry::register_factory
(implemented in Generator.cpp, absent from the sources): registering a
name already present is a user_error and leaves the map unchanged;
otherwise the factory is inserted.  The association list carries the
map's entries. -/
def register_factory (reg : List (String × SimpleFactory)) (n : String)
    (f : SimpleFactory) : List (String × SimpleFactory) × Option GError :=
  if (reg.find? (fun q => q.1 == n)).isSome then (reg, some GError.DuplicateName)
  else (reg ++ [(n, f)], none)

/-- Modelled from the spec: GeneratorRegistry::create: look the name up
under the lock (user_error when absent), release the lock, then run the
factory's create on the overrides. -/
def registry_create (reg : List (String × SimpleFactory)) (n : String)
    (ov : List (String × String)) : Except GError GenInstance :=
  match reg.find? (fun q => q.1 == n) with
  | none => Except.error GError.NotFound
  | some q => q.2.create ov

/-- A one-parameter example instance: configuration value "level" with
default 1 and declared bounds 0..10. -/
def levelInstance : GenInstance :=
  ⟨"", [("level", mkInt32Param 1 0 10)]⟩

/-- A factory producing levelInstance. -/
def levelFactory : SimpleFactory := ⟨levelInstance, "LevelWrapper"⟩

/-! ### Helper lemmas: the decimal printer inverts the stream reader -/

theorem digit_facts : ∀ d : Nat, d < 10 →
    isDigitChar (digitChar d) = true ∧ isSpaceChar (digitChar d) = false ∧
    digitVal (digitChar d) = d ∧ digitChar d ≠ '-' ∧ digitChar d ≠ '+' := by decide

theorem natDecDigits_forall (n : Nat) :
    ∀ c ∈ natDecDigits n, isDigitChar c = true ∧ isSpaceChar c = false ∧
      c ≠ '-' ∧ c ≠ '+' := by
  induction n using natDecDigits.induct with
  | case1 n h =>
    intro c hc
    rw [natDecDigits, if_pos h] at hc
    simp only [List.mem_singleton] at hc
    subst hc
    have := digit_facts n h
    exact ⟨this.1, this.2.1, this.2.2.2.1, this.2.2.2.2⟩
  | case2 n h ih =>
    intro c hc
    rw [natDecDigits, if_neg h] at hc
    rcases List.mem_append.mp hc with h1 | h1
    · exact ih c h1
    · simp only [List.mem_singleton] at h1
      subst h1
      have h10 : n % 10 < 10 := Nat.mod_lt _ (by omega)
      have := digit_facts (n % 10) h10
      exact ⟨this.1, this.2.1, this.2.2.2.1, this.2.2.2.2⟩

theorem natDecDigits_ne_nil (n : Nat) : natDecDigits n ≠ [] := by
  induction n using natDecDigits.induct with
  | case1 n h => rw [natDecDigits, if_pos h]; simp
  | case2 n h ih => rw [natDecDigits, if_neg h]; simp

theorem digitsVal_append_single (ds : List Char) (c : Char) :
    digitsVal (ds ++ [c]) = digitsVal ds * 10 + digitVal c := by
  simp [digitsVal, List.foldl_append]

theorem digitsVal_natDecDigits (n : Nat) : digitsVal (natDecDigits n) = n := by
  induction n using natDecDigits.induct with
  | case1 n h =>
    rw [natDecDigits, if_pos h]
    simp [digitsVal, (digit_facts n h).2.2.1]
  | case2 n h ih =>
    rw [natDecDigits, if_neg h, digitsVal_append_single, ih,
      (digit_facts (n % 10) (Nat.mod_lt _ (by omega))).2.2.1]
    omega

theorem takeWhile_eq_self_of_all {α} (p : α → Bool) :
    ∀ l : List α, (∀ a ∈ l, p a = true) → l.takeWhile p = l := by
  intro l h
  induction l with
  | nil => rfl
  | cons a t ih =>
    rw [List.takeWhile_cons, h a (by simp)]
    simp [ih (fun b hb => h b (by simp [hb]))]

theorem dropWhile_eq_nil_of_all {α} (p : α → Bool) :
    ∀ l : List α, (∀ a ∈ l, p a = true) → l.dropWhile p = [] := by
  intro l h
  induction l with
  | nil => rfl
  | cons a t ih =>
    rw [List.dropWhile_cons, h a (by simp)]
    simp [ih (fun b hb => h b (by simp [hb]))]

theorem readUnsignedDigits_natDecDigits (n : Nat) :
    readUnsignedDigits (natDecDigits n) = some (n, []) := by
  have hall : ∀ c ∈ natDecDigits n, isDigitChar c = true :=
    fun c hc => (natDecDigits_forall n c hc).1
  rw [readUnsignedDigits]
  simp only [takeWhile_eq_self_of_all _ _ hall, dropWhile_eq_nil_of_all _ _ hall]
  rw [if_neg (by simpa [List.isEmpty_iff] using natDecDigits_ne_nil n)]
  rw [digitsVal_natDecDigits]

theorem splitSign_neg (l : List Char) : splitSign ('-' :: l) = (true, l) := by
  simp [splitSign]

theorem splitSign_nosign {c : Char} (l : List Char) (h1 : c ≠ '-') (h2 : c ≠ '+') :
    splitSign (c :: l) = (false, c :: l) := by
  simp [splitSign, h1, h2]

theorem dropWhile_head_false {p : Char → Bool} {c : Char} {l : List Char} (h : p c = false) :
    List.dropWhile p (c :: l) = c :: l := by
  rw [List.dropWhile_cons, h]
  simp

theorem streamReadInt_intToDecString (tlo thi v : Int) (h1 : tlo ≤ v) (h2 : v ≤ thi) :
    streamReadInt tlo thi (intToDecString v).data = some (v, []) := by
  by_cases hv : v < 0
  · rw [intToDecString, if_pos hv]
    show streamReadInt tlo thi ('-' :: natDecDigits (-v).toNat) = some (v, [])
    have hmv : -((((-v).toNat : Nat) : Int)) = v := by omega
    simp only [streamReadInt, dropWhile_head_false (show isSpaceChar '-' = false from rfl),
      splitSign_neg, readUnsignedDigits_natDecDigits, if_true]
    rw [hmv, if_pos ⟨h1, h2⟩]
  · rw [intToDecString, if_neg hv]
    show streamReadInt tlo thi (natDecDigits v.toNat) = some (v, [])
    obtain ⟨c, t, hct⟩ : ∃ c t, natDecDigits v.toNat = c :: t := by
      cases h : natDecDigits v.toNat with
      | nil => exact absurd h (natDecDigits_ne_nil _)
      | cons c t => exact ⟨c, t, rfl⟩
    have hc := natDecDigits_forall v.toNat c (by rw [hct]; simp)
    have hmv : (((v.toNat : Nat) : Int)) = v := by omega
    rw [streamReadInt, hct]
    simp only [dropWhile_head_false hc.2.1, splitSign_nosign t hc.2.2.1 hc.2.2.2]
    rw [← hct, readUnsignedDigits_natDecDigits]
    simp only [Bool.false_eq_true, if_false]
    rw [hmv, if_pos ⟨h1, h2⟩]

/-! ### Helper lemmas: enum lookup -/

theorem enum_find_key {m : List (String × Int)} {s : String} {kv : String × Int}
    (h : m.find? (fun q => q.1 == s) = some kv) : kv.1 = s ∧ kv ∈ m := by
  refine ⟨?_, List.mem_of_find?_eq_some h⟩
  have := List.find?_some h
  simpa using this

theorem enum_find_val {m : List (String × Int)} {v : Int} {kv : String × Int}
    (h : m.find? (fun q => q.2 == v) = some kv) : kv.2 = v ∧ kv ∈ m := by
  refine ⟨?_, List.mem_of_find?_eq_some h⟩
  have := List.find?_some h
  simpa using this

theorem enum_set_from_string_ok_iff (p : EnumParam) (s : String) :
    (p.set_from_string s).2 = none ↔ s ∈ p.enum_map.map Prod.fst := by
  rw [EnumParam.set_from_string]
  cases h : p.enum_map.find? (fun q => q.1 == s) with
  | some kv =>
    simp only
    obtain ⟨hk, hm⟩ := enum_find_key h
    simp only [true_iff]
    exact List.mem_map.mpr ⟨kv, hm, hk⟩
  | none =>
    simp only
    constructor
    · intro hc; exact absurd hc (by simp)
    · intro hc
      obtain ⟨kv, hm, hk⟩ := List.mem_map.mp hc
      have := List.find?_eq_none.mp h kv hm
      simp [hk] at this

theorem enum_to_string_of_mem {m : List (String × Int)} {kv : String × Int}
    (hvals : (m.map Prod.snd).Nodup) (hm : kv ∈ m) :
    enum_to_string m kv.2 = some kv.1 := by
  have hsome : (m.find? (fun q => q.2 == kv.2)).isSome :=
    List.find?_isSome.mpr ⟨kv, hm, by simp⟩
  cases h : m.find? (fun q => q.2 == kv.2) with
  | none => rw [h] at hsome; simp at hsome
  | some kv2 =>
    obtain ⟨hv2, hm2⟩ := enum_find_val h
    have : kv2 = kv := List.inj_on_of_nodup_map hvals hm2 hm hv2
    rw [enum_to_string, h, this]
    rfl

theorem enum_roundtrip (p : EnumParam) (v : Int)
    (hkeys : (p.enum_map.map Prod.fst).Nodup)
    (hvals : (p.enum_map.map Prod.snd).Nodup)
    (hv : v ∈ p.enum_map.map Prod.snd) :
    ∃ s, EnumParam.to_string { p with value := v } = some s ∧
      EnumParam.set_from_string { p with value := v } s = ({ p with value := v }, none) := by
  obtain ⟨kv, hm, hkv⟩ := List.mem_map.mp hv
  subst hkv
  refine ⟨kv.1, ?_, ?_⟩
  · rw [EnumParam.to_string]
    exact enum_to_string_of_mem hvals hm
  · rw [EnumParam.set_from_string]
    have hsome : (p.enum_map.find? (fun q => q.1 == kv.1)).isSome :=
      List.find?_isSome.mpr ⟨kv, hm, by simp⟩
    cases h : p.enum_map.find? (fun q => q.1 == kv.1) with
    | none => rw [h] at hsome; simp at hsome
    | some kv2 =>
      obtain ⟨hk2, hm2⟩ := enum_find_key h
      have : kv2 = kv := List.inj_on_of_nodup_map hkeys hm2 hm hk2
      subst this
      simp only

/-! ### Claim theorems -/

/-- Claim C3: an arithmetic configuration value with declared bounds
rejects any set outside [min, max] and leaves the stored value unchanged
(validation precedes mutation), accepts any set inside the bounds; in
particular with min = 0, max = 10, set(11) and set_from_text("11") fail
and set(10) and set(0) succeed. -/
theorem arithmetic_param_bounds :
    (∀ (p : ArithParam) (v : Int), v < p.lo ∨ p.hi < v →
        p.set v = (p, some GError.OutOfRange)) ∧
    (∀ (p : ArithParam) (v : Int), p.lo ≤ v → v ≤ p.hi →
        p.set v = ({ p with value := v }, none)) ∧
    (∀ w : Int,
        (mkInt32Param w 0 10).set 11 = (mkInt32Param w 0 10, some GError.OutOfRange) ∧
        (mkInt32Param w 0 10).set_from_string "11" =
          (mkInt32Param w 0 10, some GError.OutOfRange) ∧
        (mkInt32Param w 0 10).set 10 = (mkInt32Param 10 0 10, none) ∧
        (mkInt32Param w 0 10).set 0 = (mkInt32Param 0 0 10, none)) := by
  refine ⟨?_, ?_, ?_⟩
  · intro p v h
    rw [ArithParam.set, if_neg (by omega)]
  · intro p v h1 h2
    rw [ArithParam.set, if_pos ⟨h1, h2⟩]
  · intro w
    have hp : streamReadInt int32_lowest int32_largest "11".data = some (11, []) := by decide
    refine ⟨?_, ?_, ?_, ?_⟩
    · rw [ArithParam.set, if_neg (by simp [mkInt32Param])]
    · rw [ArithParam.set_from_string]
      show (match streamReadInt int32_lowest int32_largest "11".data with
        | some (v, rest) => if rest.isEmpty then (mkInt32Param w 0 10).set v
          else (mkInt32Param w 0 10, some GError.ParseFailure)
        | none => (mkInt32Param w 0 10, some GError.ParseFailure)) =
        (mkInt32Param w 0 10, some GError.OutOfRange)
      rw [hp]
      show (mkInt32Param w 0 10).set 11 = (mkInt32Param w 0 10, some GError.OutOfRange)
      rw [ArithParam.set, if_neg (by simp [mkInt32Param])]
    · rw [ArithParam.set, if_pos (by simp [mkInt32Param])]
      rfl
    · rw [ArithParam.set, if_pos (by simp [mkInt32Param])]
      rfl

/-- Witness for arithmetic_param_bounds at concrete inputs. -/
theorem arithmetic_param_bounds_witness :
    (mkInt32Param 5 0 10).set 42 = (mkInt32Param 5 0 10, some GError.OutOfRange) ∧
    (mkInt32Param 5 0 10).set 7 = (mkInt32Param 7 0 10, none) ∧
    (mkInt32Param 5 0 10).set_from_string "11" =
      (mkInt32Param 5 0 10, some GError.OutOfRange) :=
  ⟨arithmetic_param_bounds.1 (mkInt32Param 5 0 10) 42 (by decide),
   arithmetic_param_bounds.2.1 (mkInt32Param 5 0 10) 7 (by decide) (by decide),
   (arithmetic_param_bounds.2.2 5).2.1⟩

/-- Claim C4 (amended): for signed-integer, bool, enum, loop-reference
(an enum over the reserved sentinels) and target (string-codec)
configuration-value kinds, setting a legal value and then applying
set_from_text to the result of to_text reproduces the value exactly.
The enum/loop-reference cases require the std::map key uniqueness and,
for value recovery, pairwise-distinct table values. -/
theorem config_value_roundtrip :
    (∀ (p : ArithParam) (v : Int), p.tlo ≤ p.lo → p.hi ≤ p.thi →
        p.lo ≤ v → v ≤ p.hi →
        p.set v = ({ p with value := v }, none) ∧
        ArithParam.set_from_string { p with value := v }
          (ArithParam.to_string { p with value := v }) = ({ p with value := v }, none)) ∧
    (∀ (p : BoolParam) (v : Bool),
        BoolParam.set_from_string ⟨v⟩ (BoolParam.to_string ⟨v⟩) = (⟨v⟩, none)) ∧
    (∀ (p : EnumParam) (v : Int),
        (p.enum_map.map Prod.fst).Nodup → (p.enum_map.map Prod.snd).Nodup →
        v ∈ p.enum_map.map Prod.snd →
        ∃ s, EnumParam.to_string { p with value := v } = some s ∧
          EnumParam.set_from_string { p with value := v } s =
            ({ p with value := v }, none)) ∧
    (∀ (w v : Int), v ∈ looplevelEnumMap.map Prod.snd →
        ∃ s, EnumParam.to_string ⟨v, looplevelEnumMap⟩ = some s ∧
          EnumParam.set_from_string ⟨v, looplevelEnumMap⟩ s =
            (⟨v, looplevelEnumMap⟩, none)) ∧
    (∀ v : String,
        TargetParam.set_from_string ⟨v⟩ (TargetParam.to_string ⟨v⟩) = (⟨v⟩, none)) := by
  refine ⟨?_, ?_, ?_, ?_, ?_⟩
  · intro p v ht1 ht2 h1 h2
    refine ⟨by rw [ArithParam.set, if_pos ⟨h1, h2⟩], ?_⟩
    rw [ArithParam.set_from_string, ArithParam.to_string]
    show (match streamReadInt p.tlo p.thi (intToDecString v).data with
      | some (v2, rest) => if rest.isEmpty then ArithParam.set { p with value := v } v2
        else ({ p with value := v }, some GError.ParseFailure)
      | none => ({ p with value := v }, some GError.ParseFailure)) =
      ({ p with value := v }, none)
    rw [streamReadInt_intToDecString p.tlo p.thi v (by omega) (by omega)]
    show ArithParam.set { p with value := v } v = ({ p with value := v }, none)
    rw [ArithParam.set, if_pos ⟨h1, h2⟩]
  · intro p v
    cases v <;> rfl
  · intro p v hk hv hmem
    exact enum_roundtrip p v hk hv hmem
  · intro w v hmem
    refine enum_roundtrip ⟨w, looplevelEnumMap⟩ v ?_ ?_ hmem
    · show (looplevelEnumMap.map Prod.fst).Nodup
      decide
    · show (looplevelEnumMap.map Prod.snd).Nodup
      decide
  · intro v
    rfl

/-- Witness for config_value_roundtrip at concrete inputs: an int32
parameter bounded by 0..10 round-trips 7; the wraptest bag_type table
round-trips the value of "plastic"; the loop-level table round-trips the
value of "root". -/
theorem config_value_roundtrip_witness :
    ((mkInt32Param 5 0 10).set 7 = (mkInt32Param 7 0 10, none) ∧
      (mkInt32Param 7 0 10).set_from_string ((mkInt32Param 7 0 10).to_string) =
        (mkInt32Param 7 0 10, none)) ∧
    (∃ s, EnumParam.to_string ⟨1, bagTable⟩ = some s ∧
      EnumParam.set_from_string ⟨1, bagTable⟩ s = (⟨1, bagTable⟩, none)) ∧
    (∃ s, EnumParam.to_string ⟨1, looplevelEnumMap⟩ = some s ∧
      EnumParam.set_from_string ⟨1, looplevelEnumMap⟩ s =
        (⟨1, looplevelEnumMap⟩, none)) :=
  ⟨config_value_roundtrip.1 (mkInt32Param 5 0 10) 7 (by decide) (by decide)
      (by decide) (by decide),
   config_value_roundtrip.2.2.1 ⟨5, bagTable⟩ 1 (by decide) (by decide) (by decide),
   config_value_roundtrip.2.2.2.1 5 1 (by decide)⟩

/-- Counterexample to claim C4 as stated: for the 8-bit integer kind
stream insertion writes the raw character, so the legal value 32 (the
space character) prints as " ", which istream extraction (which skips
whitespace) then fails to parse; set_from_text(to_text(set(32))) reports
a parse failure instead of reproducing 32. -/
theorem config_value_roundtrip_cex :
    c4Int8Example.set 32 = (⟨32, -128, 127⟩, none) ∧
    Int8Param.to_string ⟨32, -128, 127⟩ = " " ∧
    Int8Param.set_from_string ⟨32, -128, 127⟩ " " =
      (⟨32, -128, 127⟩, some GError.ParseFailure) := by
  refine ⟨by decide, by decide, by decide⟩

/-- Claim C5 (amended): set_from_text on an enum configuration value
succeeds exactly when its argument is one of the table's names
(exact-name lookup) and fails with UnknownVariant otherwise; after a
successful set_from_text, to_text returns the first table entry (in
std::map key order) whose value equals the stored value — which is the
set name itself whenever the table's values are pairwise distinct, as in
the paper/plastic example. -/
theorem enum_param_exact_lookup :
    (∀ (p : EnumParam) (s : String),
        (p.set_from_string s).2 = none ↔ s ∈ p.enum_map.map Prod.fst) ∧
    (∀ (p : EnumParam) (s : String), s ∉ p.enum_map.map Prod.fst →
        p.set_from_string s = (p, some GError.UnknownVariant)) ∧
    (∀ (p q : EnumParam) (s : String), (p.enum_map.map Prod.snd).Nodup →
        p.set_from_string s = (q, none) → q.to_string = some s) ∧
    (∀ w : Int,
        (EnumParam.set_from_string ⟨w, bagTable⟩ "plastic").2 = none ∧
        ((EnumParam.set_from_string ⟨w, bagTable⟩ "plastic").1).to_string =
          some "plastic" ∧
        EnumParam.set_from_string ⟨w, bagTable⟩ "glass" =
          (⟨w, bagTable⟩, some GError.UnknownVariant)) := by
  refine ⟨enum_set_from_string_ok_iff, ?_, ?_, ?_⟩
  · intro p s hs
    rw [EnumParam.set_from_string]
    cases h : p.enum_map.find? (fun q => q.1 == s) with
    | some kv =>
      obtain ⟨hk, hm⟩ := enum_find_key h
      exact absurd (List.mem_map.mpr ⟨kv, hm, hk⟩) hs
    | none => rfl
  · intro p q s hvals h
    rw [EnumParam.set_from_string] at h
    cases hf : p.enum_map.find? (fun q2 => q2.1 == s) with
    | none => rw [hf] at h; simp at h
    | some kv =>
      rw [hf] at h
      simp only [Prod.mk.injEq] at h
      obtain ⟨hk, hm⟩ := enum_find_key hf
      rw [← h.1, EnumParam.to_string]
      show enum_to_string p.enum_map kv.2 = some s
      rw [enum_to_string_of_mem hvals hm, hk]
  · intro w
    refine ⟨?_, ?_, ?_⟩
    · show (EnumParam.mk 1 bagTable, (none : Option GError)).2 = none
      rfl
    · show EnumParam.to_string ⟨1, bagTable⟩ = some "plastic"
      decide
    · rfl

/-- Witness for enum_param_exact_lookup at concrete inputs. -/
theorem enum_param_exact_lookup_witness :
    ((EnumParam.set_from_string ⟨0, bagTable⟩ "plastic").2 = none ↔
      "plastic" ∈ bagTable.map Prod.fst) ∧
    EnumParam.set_from_string ⟨0, bagTable⟩ "glass" =
      (⟨0, bagTable⟩, some GError.UnknownVariant) ∧
    EnumParam.to_string ⟨1, bagTable⟩ = some "plastic" :=
  ⟨enum_param_exact_lookup.1 ⟨0, bagTable⟩ "plastic",
   enum_param_exact_lookup.2.1 ⟨0, bagTable⟩ "glass" (by decide),
   enum_param_exact_lookup.2.2.1 ⟨0, bagTable⟩ ⟨1, bagTable⟩ "plastic" (by decide)
     (by decide)⟩

/-- Counterexample to claim C5 as stated: with the table
[("a", 0), ("b", 0)] (legal for std::map, which only deduplicates keys),
set_from_text("b") succeeds but to_text() then returns "a", the first
name mapping to the stored value, not the set name "b". -/
theorem enum_param_exact_lookup_cex :
    (EnumParam.set_from_string ⟨1, dupValueTable⟩ "b").2 = none ∧
    ((EnumParam.set_from_string ⟨1, dupValueTable⟩ "b").1).to_string = some "a" ∧
    some "a" ≠ some "b" := by
  refine ⟨by decide, by decide, by decide⟩

/-- Claim C6 (amended): set_from_text fails, leaving the stored value
unchanged, whenever the parse per the value's own textual grammar does
not consume every character of the input, fails outright, or yields a
value outside the declared bounds — where that grammar is the decimal
integer grammar for integer kinds of width 16/32/64, "true"/"false" for
bool, and single-character extraction (not the decimal grammar) for
8-bit integer kinds, whose set_from_text therefore succeeds on inputs
such as "x" that the decimal grammar would reject (see the
counterexample). -/
theorem set_from_text_parse_bounds :
    (∀ (p : ArithParam) (s : String) (v : Int) (rest : List Char),
        streamReadInt p.tlo p.thi s.data = some (v, rest) → rest ≠ [] →
        p.set_from_string s = (p, some GError.ParseFailure)) ∧
    (∀ (p : ArithParam) (s : String) (v : Int),
        streamReadInt p.tlo p.thi s.data = some (v, []) → (v < p.lo ∨ p.hi < v) →
        p.set_from_string s = (p, some GError.OutOfRange)) ∧
    (∀ (p : ArithParam) (s : String),
        streamReadInt p.tlo p.thi s.data = none →
        p.set_from_string s = (p, some GError.ParseFailure)) ∧
    (∀ (p : BoolParam) (s : String), s ≠ "true" → s ≠ "false" →
        p.set_from_string s = (p, some GError.ParseFailure)) ∧
    (∀ (p : Int8Param) (s : String) (c : Char) (rest : List Char),
        streamReadChar s.data = some (c, rest) → rest ≠ [] →
        p.set_from_string s = (p, some GError.ParseFailure)) ∧
    (∀ (p : Int8Param) (s : String),
        streamReadChar s.data = none →
        p.set_from_string s = (p, some GError.ParseFailure)) ∧
    (∀ (p : Int8Param) (s : String) (c : Char),
        streamReadChar s.data = some (c, []) →
        (charToInt8 c < p.lo ∨ p.hi < charToInt8 c) →
        p.set_from_string s = (p, some GError.OutOfRange)) := by
  refine ⟨?_, ?_, ?_, ?_, ?_, ?_, ?_⟩
  · intro p s v rest hp hrest
    rw [ArithParam.set_from_string, hp]
    simp only [List.isEmpty_iff]
    rw [if_neg hrest]
  · intro p s v hp hout
    rw [ArithParam.set_from_string, hp]
    show ArithParam.set p v = (p, some GError.OutOfRange)
    rw [ArithParam.set, if_neg (by omega)]
  · intro p s hp
    rw [ArithParam.set_from_string, hp]
  · intro p s h1 h2
    rw [BoolParam.set_from_string, if_neg h1, if_neg h2]
  · intro p s c rest hp hrest
    rw [Int8Param.set_from_string, hp]
    simp only [List.isEmpty_iff]
    rw [if_neg hrest]
  · intro p s hp
    rw [Int8Param.set_from_string, hp]
  · intro p s c hp hout
    rw [Int8Param.set_from_string, hp]
    show Int8Param.set p (charToInt8 c) = (p, some GError.OutOfRange)
    rw [Int8Param.set, if_neg (by omega)]

/-- Witness for set_from_text_parse_bounds at concrete inputs: trailing
garbage, an in-type but out-of-bounds value, an unparsable string, a
non-boolean word, and — for the 8-bit character grammar — a two-character
input, an all-whitespace input, and a character whose value exceeds the
declared bounds all fail and leave the value unchanged. -/
theorem set_from_text_parse_bounds_witness :
    (mkInt32Param 5 0 10).set_from_string "11x" =
      (mkInt32Param 5 0 10, some GError.ParseFailure) ∧
    (mkInt32Param 5 0 10).set_from_string "11" =
      (mkInt32Param 5 0 10, some GError.OutOfRange) ∧
    (mkInt32Param 5 0 10).set_from_string "abc" =
      (mkInt32Param 5 0 10, some GError.ParseFailure) ∧
    BoolParam.set_from_string ⟨false⟩ "maybe" =
      (⟨false⟩, some GError.ParseFailure) ∧
    Int8Param.set_from_string ⟨0, -128, 127⟩ "ab" =
      (⟨0, -128, 127⟩, some GError.ParseFailure) ∧
    Int8Param.set_from_string ⟨0, -128, 127⟩ " " =
      (⟨0, -128, 127⟩, some GError.ParseFailure) ∧
    Int8Param.set_from_string ⟨0, 0, 10⟩ "x" =
      (⟨0, 0, 10⟩, some GError.OutOfRange) :=
  ⟨set_from_text_parse_bounds.1 (mkInt32Param 5 0 10) "11x" 11 ['x'] (by decide)
      (by decide),
   set_from_text_parse_bounds.2.1 (mkInt32Param 5 0 10) "11" 11 (by decide) (by decide),
   set_from_text_parse_bounds.2.2.1 (mkInt32Param 5 0 10) "abc" (by decide),
   set_from_text_parse_bounds.2.2.2.1 ⟨false⟩ "maybe" (by decide) (by decide),
   set_from_text_parse_bounds.2.2.2.2.1 ⟨0, -128, 127⟩ "ab" 'a' ['b'] (by decide)
      (by decide),
   set_from_text_parse_bounds.2.2.2.2.2.1 ⟨0, -128, 127⟩ " " (by decide),
   set_from_text_parse_bounds.2.2.2.2.2.2 ⟨0, 0, 10⟩ "x" 'x' (by decide) (by decide)⟩

/-- Counterexample to claim C6 as stated: the 8-bit integer kind is a
numeric configuration value, yet its set_from_text does not follow the
decimal integer grammar: on input "x" the decimal parse consumes no
character at all, but set_from_text succeeds, extracting the character
and storing its code 120 under the constructor's default bounds. -/
theorem set_from_text_parse_bounds_cex :
    streamReadInt (-128) 127 "x".data = none ∧
    Int8Param.set_from_string ⟨0, -128, 127⟩ "x" = (⟨120, -128, 127⟩, none) := by
  refine ⟨by decide, by decide⟩

/-- Claim C2: in the phased protocol, schedule() before generate() fails
with OutOfOrder; a second generate() or schedule() fails with
DoubleInvocation; a second build() (either protocol) fails the
!build_pipeline_called assert; every such failure fires its guard before
any mutation, so the state — and with it the first successful call's
result — is unchanged. -/
theorem generator_lifecycle_protocol :
    (∀ s : GenLifecycle, s.generate_called = false →
        call_schedule_impl s = (s, some GError.OutOfOrder)) ∧
    (∀ s : GenLifecycle, s.generate_called = true →
        call_generate_impl s = (s, some GError.DoubleInvocation)) ∧
    (∀ s : GenLifecycle, s.generate_called = true → s.schedule_called = true →
        call_schedule_impl s = (s, some GError.DoubleInvocation)) ∧
    (∀ s : GenLifecycle, s.build_pipeline_called = true →
        build_pipeline_impl_build s = (s, some GError.InternalAssert) ∧
        build_pipeline_impl_phased s = (s, some GError.InternalAssert)) ∧
    (∀ s s1 : GenLifecycle, call_generate_impl s = (s1, none) →
        call_generate_impl s1 = (s1, some GError.DoubleInvocation)) ∧
    (∀ s s1 : GenLifecycle, call_schedule_impl s = (s1, none) →
        call_schedule_impl s1 = (s1, some GError.DoubleInvocation)) ∧
    (∀ s s1 : GenLifecycle, build_pipeline_impl_build s = (s1, none) →
        build_pipeline_impl_build s1 = (s1, some GError.InternalAssert)) ∧
    (∀ s s1 : GenLifecycle, build_pipeline_impl_phased s = (s1, none) →
        build_pipeline_impl_phased s1 = (s1, some GError.InternalAssert)) := by
  refine ⟨?_, ?_, ?_, ?_, ?_, ?_, ?_, ?_⟩
  · intro s h
    rw [call_schedule_impl, if_pos h]
  · intro s h
    rw [call_generate_impl, if_pos h]
  · intro s h1 h2
    rw [call_schedule_impl, if_neg (by simp [h1]), if_pos h2]
  · intro s h
    exact ⟨by rw [build_pipeline_impl_build, if_pos h],
           by rw [build_pipeline_impl_phased, if_pos h]⟩
  · intro s s1 h
    rw [call_generate_impl] at h
    by_cases hg : s.generate_called
    · rw [if_pos hg] at h; simp at h
    · rw [if_neg hg] at h
      have : s1.generate_called = true := by
        have := congrArg (fun q => q.1.generate_called) h
        simpa using this.symm
      rw [call_generate_impl, if_pos this]
  · intro s s1 h
    rw [call_schedule_impl] at h
    by_cases h1 : s.generate_called = false
    · rw [if_pos h1] at h; simp at h
    · rw [if_neg h1] at h
      by_cases h2 : s.schedule_called
      · rw [if_pos h2] at h; simp at h
      · rw [if_neg h2] at h
        have hs1 : s1 = { s with schedule_called := true } := by
          have := congrArg Prod.fst h
          simpa using this.symm
        subst hs1
        rw [call_schedule_impl, if_neg (by simpa using h1), if_pos rfl]
  · intro s s1 h
    rw [build_pipeline_impl_build] at h
    by_cases hb : s.build_pipeline_called
    · rw [if_pos hb] at h; simp at h
    · rw [if_neg hb] at h
      have : s1.build_pipeline_called = true := by
        have := congrArg (fun q => q.1.build_pipeline_called) h
        simpa using this.symm
      rw [build_pipeline_impl_build, if_pos this]
  · intro s s1 h
    rw [build_pipeline_impl_phased] at h
    have hflag : s1.build_pipeline_called = true := by
      split at h
      · simp at h
      · split at h
        · simp at h
        · split at h
          · simp at h
          · have := congrArg (fun q => q.1.build_pipeline_called) h
            simpa using this.symm
    rw [build_pipeline_impl_phased, if_pos hflag]

/-- Witness for generator_lifecycle_protocol at concrete states: a fresh
instance rejects schedule()-first; after a successful generate(), a
second generate() fails; after a successful one-shot build(), a second
build() fails. -/
theorem generator_lifecycle_protocol_witness :
    call_schedule_impl initLifecycle = (initLifecycle, some GError.OutOfOrder) ∧
    call_generate_impl ⟨true, false, false⟩ =
      (⟨true, false, false⟩, some GError.DoubleInvocation) ∧
    build_pipeline_impl_build ⟨false, false, true⟩ =
      (⟨false, false, true⟩, some GError.InternalAssert) :=
  ⟨generator_lifecycle_protocol.1 initLifecycle rfl,
   generator_lifecycle_protocol.2.2.2.2.1 initLifecycle ⟨true, false, false⟩ rfl,
   generator_lifecycle_protocol.2.2.2.2.2.2.1 initLifecycle ⟨false, false, true⟩ rfl⟩

/-- Claim C7: after a successful bind, exactly one of the descriptor's
two value lists is populated (nonempty whenever the resolved multiplicity
is positive), the populated list's length equals the resolved
multiplicity, the matching accessor returns it, and the accessors fail
(internal_assert) on a descriptor in any other state. -/
theorem gio_funcs_exprs_invariant :
    (∀ (g g1 : GIOState) (fs : List Nat), g.bindFuncs fs = Except.ok g1 →
        g1.funcs.length = g1.array_size ∧ g1.exprs = [] ∧
        g1.funcsAcc = Except.ok g1.funcs ∧
        (0 < g1.array_size → g1.funcs ≠ [] ∧
          g1.exprsAcc = Except.error GError.InternalAssert)) ∧
    (∀ (g g1 : GIOState) (es : List Nat), g.bindExprs es = Except.ok g1 →
        g1.exprs.length = g1.array_size ∧ g1.funcs = [] ∧
        g1.exprsAcc = Except.ok g1.exprs ∧
        (0 < g1.array_size → g1.exprs ≠ [] ∧
          g1.funcsAcc = Except.error GError.InternalAssert)) ∧
    (∀ g : GIOState, ¬(g.funcs.length = g.array_size ∧ g.exprs = []) →
        g.funcsAcc = Except.error GError.InternalAssert) ∧
    (∀ g : GIOState, ¬(g.exprs.length = g.array_size ∧ g.funcs = []) →
        g.exprsAcc = Except.error GError.InternalAssert) := by
  refine ⟨?_, ?_, ?_, ?_⟩
  · intro g g1 fs h
    rw [GIOState.bindFuncs] at h
    by_cases hl : fs.length = g.array_size
    · rw [if_pos hl] at h
      have hg1 : g1 = { g with funcs := fs, exprs := [] } := by
        cases h; rfl
      subst hg1
      refine ⟨hl, rfl, ?_, ?_⟩
      · rw [GIOState.funcsAcc, if_pos ⟨hl, rfl⟩]
      · intro hpos
        have hpos2 : 0 < g.array_size := hpos
        refine ⟨?_, ?_⟩
        · show fs ≠ []
          intro hnil
          rw [hnil] at hl
          simp at hl
          omega
        · rw [GIOState.exprsAcc, if_neg]
          intro hc
          have h0 : ([] : List Nat).length = g.array_size := hc.1
          simp at h0
          omega
    · rw [if_neg hl] at h; cases h
  · intro g g1 es h
    rw [GIOState.bindExprs] at h
    by_cases hl : es.length = g.array_size
    · rw [if_pos hl] at h
      have hg1 : g1 = { g with exprs := es, funcs := [] } := by
        cases h; rfl
      subst hg1
      refine ⟨hl, rfl, ?_, ?_⟩
      · rw [GIOState.exprsAcc, if_pos ⟨hl, rfl⟩]
      · intro hpos
        have hpos2 : 0 < g.array_size := hpos
        refine ⟨?_, ?_⟩
        · show es ≠ []
          intro hnil
          rw [hnil] at hl
          simp at hl
          omega
        · rw [GIOState.funcsAcc, if_neg]
          intro hc
          have h0 : ([] : List Nat).length = g.array_size := hc.1
          simp at h0
          omega
    · rw [if_neg hl] at h; cases h
  · intro g h
    rw [GIOState.funcsAcc, if_neg h]
  · intro g h
    rw [GIOState.exprsAcc, if_neg h]

/-- Witness for gio_funcs_exprs_invariant: binding two handles to a
two-element Function descriptor establishes the invariant; an unbound
descriptor's accessors fail. -/
theorem gio_funcs_exprs_invariant_witness :
    ((⟨2, [7, 8], []⟩ : GIOState).funcs.length = 2 ∧
      (⟨2, [7, 8], []⟩ : GIOState).funcsAcc = Except.ok [7, 8] ∧
      (⟨2, [7, 8], []⟩ : GIOState).exprsAcc = Except.error GError.InternalAssert) ∧
    (⟨2, [], []⟩ : GIOState).funcsAcc = Except.error GError.InternalAssert := by
  have h := gio_funcs_exprs_invariant.1 ⟨2, [], []⟩ ⟨2, [7, 8], []⟩ [7, 8] rfl
  exact ⟨⟨h.1, h.2.2.1, (h.2.2.2 (by decide)).2⟩,
    gio_funcs_exprs_invariant.2.2.1 ⟨2, [], []⟩ (by decide)⟩

/-- Helper: the name field of an emitted row is the name it was built
with, in both branches of rowFor. -/
theorem rowFor_name (d : GIODecl) (k : ArgKind) (nm : String) (t : HType) :
    (d.rowFor k nm t).name = nm := by
  rw [GIODecl.rowFor]
  split <;> rfl

/-- Claim C1: the emitted metadata lists the implicit context argument
(when declared) first, then every input in declaration order, then every
output in declaration order, with each array flattened into consecutive
rows in ascending index order named "name_i" (zero-indexed); on the
metadata_tester declaration this reproduces the AOT test's expected
order exactly (visibly not sorted alphabetically or by type). -/
theorem metadata_argument_order :
    (∀ g : GenDecl, (emit_metadata g).arguments =
        (if g.hasUserContext then [uconRow] else [])
          ++ (g.inputs.map (fun d => d.emitRows false)).flatten
          ++ (g.outputs.map (fun d => d.emitRows true)).flatten) ∧
    (∀ (d : GIODecl) (b : Bool), d.is_array = true →
        (d.emitRows b).map FilterArgument.name =
          (List.range d.array_size).map (array_name d.name)) ∧
    (∀ (n : String) (i : Nat), array_name n i = n ++ "_" ++ toString i) ∧
    (emit_metadata metadataTesterUconDecl).arguments.map FilterArgument.name =
      mdExpectedNames ∧
    (emit_metadata metadataTesterDecl).arguments.map FilterArgument.name =
      mdExpectedNames.tail ∧
    (emit_metadata metadataTesterUconDecl).num_arguments = 44 := by
  refine ⟨fun g => rfl, ?_, fun n i => rfl, by decide, by decide, by decide⟩
  intro d b hd
  rw [GIODecl.emitRows]
  simp only [hd, if_true, List.map_map]
  exact List.map_congr_left (fun i _ => rowFor_name d (d.argKindFor b) (array_name d.name i) d.firstType)

/-- Witness for metadata_argument_order: the wraptest g output (an array
of size 2) flattens to g_0, g_1. -/
theorem metadata_argument_order_witness :
    ((mkFuncArrayOutput 2 "g" (tInt 16) 2).emitRows true).map FilterArgument.name =
      ["g_0", "g_1"] := by
  have h := metadata_argument_order.2.1 (mkFuncArrayOutput 2 "g" (tInt 16) 2) true rfl
  rw [h]
  decide

/-- Claim C8 (amended): the record's equality semantics
(scalar_union_ptr_equal) distinguishes an absent payload from any
present payload, in particular from present-and-zero; handle-typed
scalar inputs emit absent default/min/max; an arithmetic scalar input
declared with only a default emits that default as present together with
absent min/max; declared min/max emit as present.  (An arithmetic scalar
input declared with no default emits a synthesized present default 0,
not an absent one — see the counterexample.) -/
theorem metadata_absent_vs_zero :
    (∀ (c : TypeCode) (b : Nat) (x : Rat),
        scalar_union_ptr_equal c b none (some x) = false ∧
        scalar_union_ptr_equal c b (some x) none = false ∧
        scalar_union_ptr_equal c b none none = true ∧
        scalar_union_ptr_equal c b (some 0) (some 0) = true) ∧
    (∀ n : String, ((mkScalarInputNameOnly n tHandle).emitRows false).map
        (fun a => (a.def_, a.min_, a.max_)) = [(none, none, none)]) ∧
    (∀ (n : String) (t : HType) (d : Rat), t.code ≠ TypeCode.thandle →
        ((mkScalarInputDef n t d).emitRows false).map
          (fun a => (a.def_, a.min_, a.max_)) = [(some d, none, none)]) ∧
    (∀ (n : String) (t : HType) (d mn mx : Rat), t.code ≠ TypeCode.thandle →
        ((mkScalarInputFull n t d mn mx).emitRows false).map
          (fun a => (a.def_, a.min_, a.max_)) = [(some d, some mn, some mx)]) := by
  refine ⟨?_, ?_, ?_, ?_⟩
  · intro c b x
    refine ⟨rfl, rfl, rfl, ?_⟩
    show scalar_union_equal c b 0 0 = true
    rw [scalar_union_equal]
    simp
  · intro n
    rfl
  · intro n t d ht
    simp [GIODecl.emitRows, GIODecl.argKindFor, GIODecl.firstType, GIODecl.rowFor,
      mkScalarInputDef, ht]
  · intro n t d mn mx ht
    simp [GIODecl.emitRows, GIODecl.argKindFor, GIODecl.firstType, GIODecl.rowFor,
      mkScalarInputFull, ht]

/-- Witness for metadata_absent_vs_zero at concrete inputs: the int8
comparison distinguishes absent from present-0; the handle input "h"
emits absent payloads; an int16 input with default 16 emits a present
default and absent bounds; an int32 input with bounds emits them
present. -/
theorem metadata_absent_vs_zero_witness :
    scalar_union_ptr_equal TypeCode.tint 8 none (some 0) = false ∧
    ((mkScalarInputNameOnly "h" tHandle).emitRows false).map
      (fun a => (a.def_, a.min_, a.max_)) = [(none, none, none)] ∧
    ((mkScalarInputDef "array_i16" (tInt 16) 16).emitRows false).map
      (fun a => (a.def_, a.min_, a.max_)) = [(some 16, none, none)] ∧
    ((mkScalarInputFull "i32" (tInt 32) 32 (-32) 127).emitRows false).map
      (fun a => (a.def_, a.min_, a.max_)) = [(some 32, some (-32), some 127)] := by
  refine ⟨(metadata_absent_vs_zero.1 TypeCode.tint 8 0).1,
    metadata_absent_vs_zero.2.1 "h", ?_, ?_⟩
  · exact metadata_absent_vs_zero.2.2.1 "array_i16" (tInt 16) 16 (by decide)
  · exact metadata_absent_vs_zero.2.2.2 "i32" (tInt 32) 32 (-32) 127 (by decide)

/-- Counterexample to claim C8 as stated: the scalar array input
array_i8 is declared with no default (the name-only constructor), yet
its emitted rows carry a present default 0, not an absent one — the
framework synthesizes the default (see scalar_input_default_zero), so
"declared with no default" does not yield an absent default field. -/
theorem metadata_absent_default_cex :
    ((mkScalarArrayInputNameOnly 2 "array_i8" (tInt 8)).emitRows false).map
      FilterArgument.def_ = [some 0, some 0] ∧
    some (0 : Rat) ≠ (none : Option Rat) := by
  refine ⟨by decide, by decide⟩

/-- Claim C10: an arithmetic scalar generator input constructed with
only a name delegates to the default-value constructor with 0, so its
descriptor carries default 0 and every emitted metadata row for it (also
in the array form) has a present default 0, not an absent one; the
array_i8 rows of the metadata_tester record show exactly this. -/
theorem scalar_input_default_zero :
    (∀ (n : String) (t : HType),
        mkScalarInputNameOnly n t = mkScalarInputDef n t 0 ∧
        (mkScalarInputNameOnly n t).def_ = some 0) ∧
    (∀ (n : String) (t : HType), t.code ≠ TypeCode.thandle →
        ((mkScalarInputNameOnly n t).emitRows false).map FilterArgument.def_ =
          [some 0] ∧ some (0 : Rat) ≠ none) ∧
    (∀ (k : Nat) (n : String) (t : HType), t.code ≠ TypeCode.thandle →
        ((mkScalarArrayInputNameOnly k n t).emitRows false).map FilterArgument.def_ =
          List.replicate k (some 0)) ∧
    ((emit_metadata metadataTesterDecl).arguments.get? 20).map
      (fun a => (a.name, a.kind, a.type, a.def_)) =
      some ("array_i8_0", ArgKind.InputScalar, tInt 8, some 0) ∧
    ((emit_metadata metadataTesterDecl).arguments.get? 21).map
      (fun a => (a.name, a.kind, a.type, a.def_)) =
      some ("array_i8_1", ArgKind.InputScalar, tInt 8, some 0) := by
  refine ⟨fun n t => ⟨rfl, rfl⟩, ?_, ?_, by decide, by decide⟩
  · intro n t ht
    refine ⟨?_, by decide⟩
    simp [mkScalarInputNameOnly, GIODecl.emitRows, GIODecl.argKindFor,
      GIODecl.firstType, GIODecl.rowFor, mkScalarInputDef, ht]
  · intro k n t ht
    rw [mkScalarArrayInputNameOnly, mkScalarArrayInputDef, GIODecl.emitRows]
    simp only [if_true, List.map_map]
    rw [List.map_congr_left (g := fun i => some (0 : Rat)) ?_]
    · rw [List.map_const', List.length_range]
    · intro i hi
      simp [GIODecl.rowFor, GIODecl.argKindFor, GIODecl.firstType, ht]

/-- Witness for scalar_input_default_zero at concrete inputs. -/
theorem scalar_input_default_zero_witness :
    ((mkScalarInputNameOnly "x" (tInt 32)).emitRows false).map FilterArgument.def_ =
      [some 0] ∧
    ((mkScalarArrayInputNameOnly 2 "array2_i8" (tInt 8)).emitRows false).map
      FilterArgument.def_ = List.replicate 2 (some 0) :=
  ⟨(scalar_input_default_zero.2.1 "x" (tInt 32) (by decide)).1,
   scalar_input_default_zero.2.2.1 2 "array2_i8" (tInt 8) (by decide)⟩

/-- Claim C9: registering a factory under a name already present fails
with DuplicateName and leaves the registry unchanged; creating with an
unregistered name fails with NotFound; creating with a registered name
runs the factory: a fresh default instance with the textual overrides
applied (concretely, overriding "level" with "7" yields an instance
whose level parameter stores 7). -/
theorem registry_register_create :
    (∀ (reg : List (String × SimpleFactory)) (n : String) (f : SimpleFactory),
        (reg.find? (fun q => q.1 == n)).isSome = true →
        register_factory reg n f = (reg, some GError.DuplicateName)) ∧
    (∀ (reg : List (String × SimpleFactory)) (n : String) (f : SimpleFactory),
        (reg.find? (fun q => q.1 == n)).isSome = false →
        register_factory reg n f = (reg ++ [(n, f)], none)) ∧
    (∀ (reg : List (String × SimpleFactory)) (n : String)
        (ov : List (String × String)), reg.find? (fun q => q.1 == n) = none →
        registry_create reg n ov = Except.error GError.NotFound) ∧
    (∀ (reg : List (String × SimpleFactory)) (n : String)
        (ov : List (String × String)) (q : String × SimpleFactory),
        reg.find? (fun q2 => q2.1 == n) = some q →
        registry_create reg n ov = q.2.create ov) ∧
    (∀ f : SimpleFactory,
        f.create [] = Except.ok ⟨f.wrapper_class_name, f.create_func.params⟩) ∧
    registry_create [("level_gen", levelFactory)] "level_gen" [("level", "7")] =
      Except.ok ⟨"LevelWrapper", [("level", mkInt32Param 7 0 10)]⟩ ∧
    registry_create [("level_gen", levelFactory)] "missing" [] =
      Except.error GError.NotFound := by
  refine ⟨?_, ?_, ?_, ?_, fun f => rfl, rfl, rfl⟩
  · intro reg n f h
    rw [register_factory, if_pos h]
  · intro reg n f h
    rw [register_factory, if_neg (by simp [h])]
  · intro reg n ov h
    rw [registry_create, h]
  · intro reg n ov q h
    rw [registry_create, h]

/-- Witness for registry_register_create at concrete inputs. -/
theorem registry_register_create_witness :
    register_factory [("level_gen", levelFactory)] "level_gen" levelFactory =
      ([("level_gen", levelFactory)], some GError.DuplicateName) ∧
    register_factory [] "level_gen" levelFactory =
      ([("level_gen", levelFactory)], none) ∧
    registry_create [] "level_gen" [] = Except.error GError.NotFound ∧
    registry_create [("level_gen", levelFactory)] "level_gen" [] =
      levelFactory.create [] :=
  ⟨registry_register_create.1 [("level_gen", levelFactory)] "level_gen" levelFactory
      (by decide),
   registry_register_create.2.1 [] "level_gen" levelFactory (by decide),
   registry_register_create.2.2.1 [] "level_gen" [] rfl,
   registry_register_create.2.2.2.1 [("level_gen", levelFactory)] "level_gen" []
      ("level_gen", levelFactory) (by decide)⟩
